import Mathlib

/-!
Shallow embedding of the scan-governance and decision-scoring pipeline of the
techradar data-etl subsystem, together with proofs checking the natural-language
specification against the code.

Numeric scores and ratios are embedded as rationals (`ℚ`); repository counts as
naturals.  Each definition mirrors one Python function of `src/data-etl/src`,
named after it.
-/

namespace TechRadar

/-! ## Temporal analyzer (`temporal_analyzer.py`) -/

/-- Adoption-trajectory label for a technology
(`TemporalAnalyzer._determine_trend` return values). -/
inductive Trend where
  | GROWING
  | STABLE
  | DECLINING
  | ABANDONED
  | NONE
deriving DecidableEq, Repr

/-- Embeds `TemporalAnalyzer._determine_trend(recent, new, legacy, active, total)`:
computes the four ratios and classifies, first match winning. -/
def determineTrend (recent new legacy active total : ℕ) : Trend :=
  if total = 0 then Trend.NONE
  else
    let recent_ratio : ℚ := (recent : ℚ) / (total : ℚ)
    let new_ratio : ℚ := (new : ℚ) / (total : ℚ)
    let legacy_ratio : ℚ := (legacy : ℚ) / (total : ℚ)
    let activity_ratio : ℚ := (active : ℚ) / (total : ℚ)
    if recent_ratio > 1/2 ∨ (new_ratio > 3/5 ∧ activity_ratio > 7/10) then
      Trend.GROWING
    else if legacy_ratio > 7/10 ∧ activity_ratio < 3/10 then
      Trend.ABANDONED
    else if recent_ratio = 0 ∧ new_ratio < 3/10 ∧ activity_ratio < 1/2 then
      Trend.DECLINING
    else
      Trend.STABLE

/-- Embeds `TemporalAnalyzer._calculate_recency_score(recent, new, total)`:
`(recent * 1.0 + new * 0.5) / total`, or 0 when `total = 0`. -/
def calculateRecencyScore (recent new total : ℕ) : ℚ :=
  if total = 0 then 0
  else ((recent : ℚ) * 1 + (new : ℚ) * (1/2)) / (total : ℚ)

/-! ## Temporal metadata (`scanner.py`, `GitHubScanner._get_temporal_metadata`)

Only the age-class flags are needed here; `age_months` enters as a rational. -/

/-- Embeds `is_recent = age_months <= 6` from `_get_temporal_metadata`. -/
def isRecent (age_months : ℚ) : Bool := age_months ≤ 6

/-- Embeds `is_new = age_months <= 12` from `_get_temporal_metadata`. -/
def isNew (age_months : ℚ) : Bool := age_months ≤ 12

/-- Embeds `is_legacy = age_months > 24` from `_get_temporal_metadata`. -/
def isLegacy (age_months : ℚ) : Bool := 24 < age_months

/-! ## Decision engine (`classifier_enhanced.py`) -/

/-- One entry of `temporal_data['by_domain']`: the fields
`_smart_ring_decision` reads via `metrics.get(...)`. -/
structure DomainMetrics where
  total_repos : ℕ
  activity_score : ℚ
deriving DecidableEq, Repr

/-- The Adopt clause of the domain-dominance check in `_smart_ring_decision`:
`(domain_repos >= 50 and domain_activity >= 0.5) or
 (domain_repos >= 70 and domain_activity >= 0.4)`. -/
def domainAdoptCond (m : DomainMetrics) : Prop :=
  (50 ≤ m.total_repos ∧ 1/2 ≤ m.activity_score) ∨
  (70 ≤ m.total_repos ∧ 2/5 ≤ m.activity_score)

/-- The Trial clause of the domain-dominance check in `_smart_ring_decision`:
`domain_repos >= 30 and domain_activity >= 0.65`. -/
def domainTrialCond (m : DomainMetrics) : Prop :=
  30 ≤ m.total_repos ∧ 13/20 ≤ m.activity_score

instance (m : DomainMetrics) : Decidable (domainAdoptCond m) := by
  unfold domainAdoptCond; infer_instance

instance (m : DomainMetrics) : Decidable (domainTrialCond m) := by
  unfold domainTrialCond; infer_instance

/-- The `for domain, metrics in temporal_data['by_domain'].items()` loop of
`_smart_ring_decision`: the first entry with at least 20 repositories that
meets the Adopt clause yields `(0, 0.9)`, else the Trial clause `(1, 0.8)`;
otherwise the loop falls through (`none`). -/
def domainDominanceLoop : List (String × DomainMetrics) → Option (ℕ × ℚ)
  | [] => none
  | (_, m) :: rest =>
    if 20 ≤ m.total_repos then
      if domainAdoptCond m then some (0, 9/10)
      else if domainTrialCond m then some (1, 4/5)
      else domainDominanceLoop rest
    else domainDominanceLoop rest

/-- Embeds `EnhancedTechnologyClassifier._smart_ring_decision(usage, recency,
activity, trend, temporal_data)`: domain-dominance override first, then the
global Adopt/Trial/Hold/Assess cascade.  `byDomain = none` models a
`temporal_data` without (or with an empty) `by_domain` key; the result is the
`(ring, confidence)` pair. -/
def smartRingDecision (usage recency activity : ℚ) (trend : Trend)
    (byDomain : Option (List (String × DomainMetrics))) : ℕ × ℚ :=
  match byDomain.bind domainDominanceLoop with
  | some r => r
  | none =>
    if (2/5 ≤ usage ∧ 1/2 ≤ activity) ∨ (7/20 ≤ usage ∧ 3/5 ≤ activity) then
      (0, 9/10)
    else if (1/5 ≤ recency ∧ 3/5 ≤ activity ∧ trend = Trend.GROWING) ∨
            (1/4 ≤ usage ∧ 3/4 ≤ activity) then
      (1, 4/5)
    else if (usage < 1/10 ∧ activity < 3/10) ∨ trend = Trend.ABANDONED then
      (3, 17/20)
    else
      (2, 3/5)

/-- The signal-clarity fraction of
`EnhancedTechnologyClassifier._calculate_confidence`: the fraction of the four
strong signals (usage extremity, activity extremity, trend clarity, sample
size ≥ 5) that hold. -/
def signalClarity (usage_score activity_score : ℚ) (trend : Trend)
    (total_repos : ℕ) : ℚ :=
  (((if usage_score > 7/10 ∨ usage_score < 1/10 then 1 else 0) +
    (if activity_score > 4/5 ∨ activity_score < 1/5 then 1 else 0) +
    (if trend = Trend.GROWING ∨ trend = Trend.ABANDONED then 1 else 0) +
    (if 5 ≤ total_repos then 1 else 0) : ℕ) : ℚ) / 4

/-- Embeds `EnhancedTechnologyClassifier._calculate_confidence`: weighted blend
`signal*0.4 + ring*0.4 + ai*0.2`, then `min(confidence, 1.0)`.
The `recency_score` parameter is accepted (as in the Python signature) but
unused by the body. -/
def calculateConfidence (usage_score _recency_score activity_score : ℚ)
    (trend : Trend) (total_repos : ℕ) (ring_confidence ai_confidence : ℚ) : ℚ :=
  min (signalClarity usage_score activity_score trend total_repos * (2/5) +
       ring_confidence * (2/5) + ai_confidence * (1/5)) 1

/-- Embeds `EnhancedTechnologyClassifier._determine_review_need(confidence,
temporal_data, usage_score, ring)`: returns the needs-review flag and the
reason text. -/
def determineReviewNeed (confidence : ℚ) (trend : Trend)
    (total_repos : ℕ) (usage_score : ℚ) : Bool × Option String :=
  if confidence < 3/4 then
    (true, some "Low confidence classification")
  else if trend = Trend.DECLINING ∧ usage_score > 3/10 then
    (true, some "High usage but declining trend")
  else if trend = Trend.GROWING ∧ usage_score < 1/10 then
    (true, some "Low usage but growing trend")
  else if total_repos < 3 then
    (true, some "Limited data (fewer than 3 repos)")
  else
    (false, none)

/-! ## Circuit breaker (`rate_limiter.py`, class `CircuitBreaker`)

Wall-clock time is embedded as a natural number of seconds passed to each
call; elapsed-time comparisons are done in `ℤ`, matching Python's arithmetic
on `time.time()` values. -/

/-- The `state` field: `'CLOSED'`, `'OPEN'` or `'HALF_OPEN'`. -/
inductive CircuitState where
  | CLOSED
  | OPEN
  | HALF_OPEN
deriving DecidableEq, Repr

/-- The mutable state of a `CircuitBreaker` instance. -/
structure CircuitBreaker where
  failure_threshold : ℕ
  timeout : ℕ
  failure_count : ℕ
  last_failure_time : Option ℕ
  state : CircuitState
deriving DecidableEq, Repr

/-- Embeds `CircuitBreaker.__init__(failure_threshold, timeout)`. -/
def CircuitBreaker.initial (failure_threshold timeout : ℕ) : CircuitBreaker :=
  { failure_threshold := failure_threshold
    timeout := timeout
    failure_count := 0
    last_failure_time := none
    state := CircuitState.CLOSED }

/-- What a guarded call did: rejected without invoking the operation
(the "Circuit breaker is OPEN" exception), returned the operation's result,
or re-raised the operation's exception. -/
inductive CallOutcome where
  | rejected
  | success
  | failureRaised
deriving DecidableEq, Repr

/-- Result of one `CircuitBreaker.call`: the updated breaker, the outcome,
and whether the guarded operation was invoked. -/
structure CallResult where
  breaker : CircuitBreaker
  outcome : CallOutcome
  invoked : Bool
deriving DecidableEq, Repr

/-- The `try` block of `CircuitBreaker.call`: invoke the operation; on
success close from HALF_OPEN and zero the failure counter, on failure bump
the counter, stamp the failure time, and open once the threshold is reached. -/
def CircuitBreaker.attempt (b : CircuitBreaker) (now : ℕ)
    (opSucceeds : Bool) : CallResult :=
  if opSucceeds then
    { breaker :=
        { b with
          state := if b.state = CircuitState.HALF_OPEN then CircuitState.CLOSED
                   else b.state
          failure_count := 0 }
      outcome := CallOutcome.success
      invoked := true }
  else
    let fc := b.failure_count + 1
    { breaker :=
        { b with
          failure_count := fc
          last_failure_time := some now
          state := if b.failure_threshold ≤ fc then CircuitState.OPEN
                   else b.state }
      outcome := CallOutcome.failureRaised
      invoked := true }

/-- Embeds `CircuitBreaker.call(func)`: if OPEN, either enter HALF_OPEN (cooldown
elapsed) or reject; then run the guarded operation.  In the Python,
`last_failure_time` is always set whenever the state is OPEN (it is stamped by
every failure); `getD 0` totalizes the subtraction on the unreachable `None`
case. -/
def CircuitBreaker.call (b : CircuitBreaker) (now : ℕ)
    (opSucceeds : Bool) : CallResult :=
  if b.state = CircuitState.OPEN then
    if (b.timeout : ℤ) ≤ (now : ℤ) - (b.last_failure_time.getD 0 : ℤ) then
      CircuitBreaker.attempt { b with state := CircuitState.HALF_OPEN } now
        opSucceeds
    else
      { breaker := b, outcome := CallOutcome.rejected, invoked := false }
  else
    CircuitBreaker.attempt b now opSucceeds

/-- Embeds `CircuitBreaker.reset()`. -/
def CircuitBreaker.reset (b : CircuitBreaker) : CircuitBreaker :=
  { b with
    failure_count := 0
    state := CircuitState.CLOSED
    last_failure_time := none }

/-- Breaker states reachable from a fresh instance through guarded calls and
manual resets. -/
inductive CircuitBreaker.Reachable (threshold timeout : ℕ) :
    CircuitBreaker → Prop where
  | init : CircuitBreaker.Reachable threshold timeout
      (CircuitBreaker.initial threshold timeout)
  | step {b : CircuitBreaker} (now : ℕ) (opSucceeds : Bool) :
      CircuitBreaker.Reachable threshold timeout b →
      CircuitBreaker.Reachable threshold timeout
        (CircuitBreaker.call b now opSucceeds).breaker
  | reset {b : CircuitBreaker} :
      CircuitBreaker.Reachable threshold timeout b →
      CircuitBreaker.Reachable threshold timeout (CircuitBreaker.reset b)

/-- Invariant of the breaker state machine: whenever the breaker is not
CLOSED, the failure counter has reached the threshold and a failure time is
recorded.  (HALF_OPEN additionally never survives a call: it is entered and
left within a single `call`.) -/
def CircuitBreaker.Inv (b : CircuitBreaker) : Prop :=
  b.state ≠ CircuitState.HALF_OPEN ∧
  (b.state = CircuitState.OPEN →
    b.failure_threshold ≤ b.failure_count ∧ b.last_failure_time.isSome = true)

/-! ## Scan orchestrator (`scanner.py`, `GitHubScanner.scan_organization`)
and checkpoint store (`progress.py`, `ProgressTracker`)

Per-repository data is reduced to what the per-repository loop branches on:
the full name, whether the inclusion filters skip it, whether
`_scan_repository` would raise if invoked, and the clock value at the guarded
call. -/

/-- One repository of the population, as seen by the scan loop. -/
structure RepoInfo where
  full_name : String
  should_skip : Bool
  scan_raises : Bool
  time : ℕ
deriving Repr

/-- Embeds `ProgressTracker.mark_scanned`: append the identifier unless already
present.  (The periodic `_save` persists `scanned_repos` unchanged, so it is
not modelled.) -/
def markScanned (scanned_repos : List String) (repo_full_name : String) :
    List String :=
  if repo_full_name ∈ scanned_repos then scanned_repos
  else scanned_repos ++ [repo_full_name]

/-- State threaded through the `for repo in repos` loop of
`scan_organization`.  `completed` is a history variable recording the
repositories whose guarded fetch-and-extract returned without raising during
this run; it does not exist in the Python state. -/
structure ScanState where
  checkpoint : List String
  breaker : CircuitBreaker
  repos_scanned : ℕ
  repos_skipped : ℕ
  errors : ℕ
  completed : List String
deriving Repr

/-- One iteration of the repository loop of `scan_organization`: skip if
checkpointed or filtered; otherwise run the guarded scan, and only on success
mark the repository scanned.  Any exception (breaker rejection included)
lands in the `except` branch: error counted, checkpoint untouched. -/
def scanStep (s : ScanState) (r : RepoInfo) : ScanState :=
  if r.full_name ∈ s.checkpoint then
    { s with repos_skipped := s.repos_skipped + 1 }
  else if r.should_skip then
    { s with repos_skipped := s.repos_skipped + 1 }
  else
    let res := s.breaker.call r.time (!r.scan_raises)
    match res.outcome with
    | CallOutcome.success =>
        { s with
          breaker := res.breaker
          repos_scanned := s.repos_scanned + 1
          completed := s.completed ++ [r.full_name]
          checkpoint := markScanned s.checkpoint r.full_name }
    | _ =>
        { s with breaker := res.breaker, errors := s.errors + 1 }

/-- Embeds `GitHubScanner.scan_organization` run over a repository population,
starting from checkpoint `cp0` and breaker `b0`.  Running it on a prefix of
`repos` is the state at an interruption point. -/
def scanOrganization (cp0 : List String) (b0 : CircuitBreaker)
    (repos : List RepoInfo) : ScanState :=
  repos.foldl scanStep
    { checkpoint := cp0, breaker := b0, repos_scanned := 0,
      repos_skipped := 0, errors := 0, completed := [] }

/-! ## Curation engine (`ai_filter.py`, class `AITechnologyFilter`) -/

/-- Python's `s.lower()` on the (ASCII) technology names, as the character
list of `s`.  (`List Char` keeps the string operations kernel-computable.) -/
def lowerChars (s : String) : List Char :=
  s.toList.map Char.toLower

/-- Python's `needle in hay` on strings: contiguous-substring containment of
character lists. -/
def substringOf (needle hay : List Char) : Bool :=
  decide (needle <:+: hay)

/-- The `os_utils` list of `AITechnologyFilter._should_auto_ignore`. -/
def osUtils : List String :=
  ["apt-get", "brew", "curl", "wget", "tar", "zip", "unzip", "grep", "sed",
   "awk"]

/-- The `dev_utils` list of `AITechnologyFilter._should_auto_ignore`. -/
def devUtils : List String :=
  ["rimraf", "nodemon", "npm-run-all", "cross-env", "dotenv", "envsubst"]

/-- A technology as `_should_auto_ignore` reads it: its name and
`metadata.repos_count`. -/
structure FilterTech where
  name : String
  repos_count : ℕ
deriving Repr

/-- The configuration fields of `AITechnologyFilter.__init__` that the
strategic-value phase reads (with their config defaults `true`, `true`,
`true`, `5`, `[]`). -/
structure FilterConfig where
  ignore_single_repo : Bool
  ignore_os_utilities : Bool
  ignore_dev_conveniences : Bool
  always_include_min_repos : ℕ
  always_include_names : List String
deriving Repr

/-- Embeds `AITechnologyFilter._should_auto_ignore(tech)`: single-repo rule, OS
utilities, developer conveniences — three independent rules, any one
suffices. -/
def shouldAutoIgnore (cfg : FilterConfig) (t : FilterTech) : Bool :=
  (cfg.ignore_single_repo && t.repos_count == 1) ||
  (cfg.ignore_os_utilities &&
    osUtils.any (fun util => substringOf util.toList (lowerChars t.name))) ||
  (cfg.ignore_dev_conveniences &&
    devUtils.any (fun util => substringOf util.toList (lowerChars t.name)))

/-- Which branch of `_evaluate_all_strategic_value`'s per-technology cascade
decides a technology's fate. -/
inductive StrategicPath where
  | alwaysName
  | threshold
  | autoIgnore
  | oracleConsulted
deriving DecidableEq, Repr

/-- The per-technology decision cascade of
`AITechnologyFilter._evaluate_all_strategic_value`: allow-list, then global
repo-count threshold, then auto-ignore, else the Judgment Oracle is consulted
(the AI call and its kept-by-default failure fallback both lie on that last
branch). -/
def strategicPath (cfg : FilterConfig) (t : FilterTech) : StrategicPath :=
  if t.name ∈ cfg.always_include_names then StrategicPath.alwaysName
  else if cfg.always_include_min_repos ≤ t.repos_count then
    StrategicPath.threshold
  else if shouldAutoIgnore cfg t then StrategicPath.autoIgnore
  else StrategicPath.oracleConsulted

/-- The name-similarity test of `AITechnologyFilter._group_similar_names`:
case-insensitive equality, or substring containment (either way) with length
difference at most 5. -/
def similarNames (a b : String) : Bool :=
  lowerChars a == lowerChars b ||
  ((substringOf (lowerChars a) (lowerChars b) ||
      substringOf (lowerChars b) (lowerChars a)) &&
    ((a.length : ℤ) - (b.length : ℤ)).natAbs ≤ 5)

/-- The `for name in tech_names` loop of `_group_similar_names`: each
unprocessed name seeds a group of all names similar to it; groups of size one
are dropped and their seed left unprocessed. -/
def groupLoop (allNames : List String) :
    List String → List String → List (List String)
  | [], _ => []
  | n :: rest, processed =>
    if n ∈ processed then groupLoop allNames rest processed
    else
      let similar :=
        n :: allNames.filter
          (fun o => o != n && !(processed.contains o) && similarNames n o)
      if 1 < similar.length then
        similar :: groupLoop allNames rest (processed ++ similar)
      else groupLoop allNames rest processed

/-- Embeds `AITechnologyFilter._group_similar_names` on the list of technology
names. -/
def groupSimilarNames (names : List String) : List (List String) :=
  groupLoop names names []

/-- An accepted duplicate group as `apply_filter_decisions` consumes it:
`canonical_name` and `merge_candidates` from the Oracle's verdict. -/
structure MergeGroup where
  canonical_name : String
  merge_candidates : List String
deriving DecidableEq, Repr

/-- Embeds `AITechnologyFilter._detect_all_duplicates`, with the Judgment Oracle
abstracted as a function from a candidate group to `none` (not duplicates, or
the Oracle call failed) or an accepted `MergeGroup`. -/
def detectAllDuplicates (names : List String)
    (oracle : List String → Option MergeGroup) : List MergeGroup :=
  (groupSimilarNames names).filterMap
    (fun g => if 1 < g.length then oracle g else none)

/-- A classified technology as the merge phase of `apply_filter_decisions`
reads and rewrites it. -/
structure CurTech where
  name : String
  repos_count : ℕ
deriving DecidableEq, Repr

/-- The repo-count sum of `apply_filter_decisions` step 2:
`sum(tech_lookup[name].repos_count for name in [canonical]+candidates if
name in tech_lookup)`. -/
def mergedCount (techs : List CurTech) (g : MergeGroup) : ℕ :=
  ((g.canonical_name :: g.merge_candidates).filterMap
    (fun n => (techs.find? (fun t => t.name == n)).map
      (fun t => t.repos_count))).sum

/-- The per-group canonical update of `apply_filter_decisions` step 2: the
canonical entry's `repos_count` becomes the group sum. -/
def updateCanonical (techs : List CurTech) (g : MergeGroup) : List CurTech :=
  let total := mergedCount techs g
  techs.map (fun t =>
    if t.name == g.canonical_name then { t with repos_count := total } else t)

/-- Embeds `AITechnologyFilter.apply_filter_decisions` specialized to decisions that
contain only merge groups (empty strategic-removal, consolidation and
deprecation sets) — the part of the engine the merge-idempotence claim is
about: update each canonical in order, then drop every merge candidate.
Technology names are unique (they key the `tech_counts` dict upstream). -/
def applyMergeGroups (techs : List CurTech) (groups : List MergeGroup) :
    List CurTech :=
  let updated := groups.foldl updateCanonical techs
  let toRemove := groups.flatMap (fun g => g.merge_candidates)
  updated.filter (fun t => !(toRemove.contains t.name))

/-- One run of the Curation Engine's duplicate-merging pipeline:
group similar names, submit each group to the Oracle, apply the accepted
merge groups. -/
def curationMergeRun (techs : List CurTech)
    (oracle : List String → Option MergeGroup) : List CurTech :=
  applyMergeGroups techs
    (detectAllDuplicates (techs.map (fun t => t.name)) oracle)

/-! ## Helper lemmas -/

/-- Lower bound on the repository count of a domain entry meeting the Adopt
clause. -/
theorem domainAdoptCond_total_ge (m : DomainMetrics) (h : domainAdoptCond m) :
    20 ≤ m.total_repos := by
  rcases h with ⟨h, _⟩ | ⟨h, _⟩ <;> omega

/-- Lower bound on the repository count of a domain entry meeting the Trial
clause. -/
theorem domainTrialCond_total_ge (m : DomainMetrics) (h : domainTrialCond m) :
    20 ≤ m.total_repos := by
  exact le_trans (by norm_num) h.1

/-- Entries meeting neither clause are skipped by the domain-dominance
loop. -/
theorem domainDominanceLoop_append_skip
    (pre rest : List (String × DomainMetrics))
    (hpre : ∀ p ∈ pre, ¬domainAdoptCond p.2 ∧ ¬domainTrialCond p.2) :
    domainDominanceLoop (pre ++ rest) = domainDominanceLoop rest := by
  induction pre with
  | nil => rfl
  | cons hd tl ih =>
    have hhd := hpre hd (List.mem_cons_self hd tl)
    have htl : ∀ p ∈ tl, ¬domainAdoptCond p.2 ∧ ¬domainTrialCond p.2 :=
      fun p hp => hpre p (List.mem_cons_of_mem hd hp)
    obtain ⟨d, m⟩ := hd
    simp only [List.cons_append, domainDominanceLoop]
    rw [if_neg hhd.1, if_neg hhd.2]
    split_ifs <;> exact ih htl

/-- When the domain-dominance loop returns a result, that result is the ring
decision. -/
theorem smartRingDecision_domain_eq (usage recency activity : ℚ)
    (trend : Trend) (ds : List (String × DomainMetrics)) (r : ℕ × ℚ)
    (h : domainDominanceLoop ds = some r) :
    smartRingDecision usage recency activity trend (some ds) = r := by
  simp only [smartRingDecision, Option.some_bind, h]

/-- The signal-clarity fraction always lies in `[0, 1]`. -/
theorem signalClarity_mem (usage activity : ℚ) (trend : Trend) (total : ℕ) :
    0 ≤ signalClarity usage activity trend total ∧
      signalClarity usage activity trend total ≤ 1 := by
  unfold signalClarity
  split_ifs <;> norm_num

/-- States reachable by the breaker satisfy `CircuitBreaker.Inv`. -/
theorem CircuitBreaker.reachable_inv {threshold timeout : ℕ}
    {b : CircuitBreaker}
    (h : CircuitBreaker.Reachable threshold timeout b) : b.Inv := by
  induction h with
  | init =>
    exact ⟨by simp [CircuitBreaker.initial], by simp [CircuitBreaker.initial]⟩
  | step now op hb ih =>
    unfold CircuitBreaker.Inv at *
    unfold CircuitBreaker.call CircuitBreaker.attempt
    split_ifs <;> simp_all <;> first
      | omega
      | (split_ifs <;> simp_all)
  | reset hb ih =>
    exact ⟨by simp [CircuitBreaker.reset], by simp [CircuitBreaker.reset]⟩

/-- A guarded call reports success only if the operation was invoked and
succeeded. -/
theorem CircuitBreaker.call_success_op {b : CircuitBreaker} {now : ℕ}
    {op : Bool} (h : (b.call now op).outcome = CallOutcome.success) :
    op = true := by
  unfold CircuitBreaker.call CircuitBreaker.attempt at h
  split_ifs at h <;> simp_all

/-- Any checkpoint entry after a run either was present initially or names a
repository whose guarded scan would complete without raising. -/
theorem scanStep_foldl_checkpoint (repos : List RepoInfo) (s : ScanState)
    (name : String) :
    name ∈ (repos.foldl scanStep s).checkpoint →
    name ∈ s.checkpoint ∨
      ∃ r ∈ repos, r.full_name = name ∧ r.scan_raises = false := by
  induction repos generalizing s with
  | nil => intro h; exact Or.inl h
  | cons r rest ih =>
    intro h
    simp only [List.foldl_cons] at h
    rcases ih (scanStep s r) h with h' | ⟨r', hr', hname, hraise⟩
    · unfold scanStep at h'
      split_ifs at h' with h1 h2
      · exact Or.inl h'
      · exact Or.inl h'
      · rcases ho : (s.breaker.call r.time (!r.scan_raises)).outcome with
          _ | _ | _
        · simp only [ho] at h'
          exact Or.inl h'
        · simp only [ho] at h'
          by_cases hmem : r.full_name ∈ s.checkpoint
          · rw [markScanned, if_pos hmem] at h'
            exact Or.inl h'
          · rw [markScanned, if_neg hmem] at h'
            rcases List.mem_append.mp h' with h'' | h''
            · exact Or.inl h''
            · have hn : name = r.full_name := List.mem_singleton.mp h''
              have hop := CircuitBreaker.call_success_op ho
              have hrs : r.scan_raises = false := by
                cases hr : r.scan_raises
                · rfl
                · rw [hr] at hop; simp at hop
              exact Or.inr ⟨r, List.mem_cons_self r rest, hn.symm, hrs⟩
        · simp only [ho] at h'
          exact Or.inl h'
    · exact Or.inr ⟨r', List.mem_cons_of_mem r hr', hname, hraise⟩

/-- Characterization of the auto-ignore rules as a three-way disjunction. -/
theorem shouldAutoIgnore_iff (cfg : FilterConfig) (t : FilterTech) :
    shouldAutoIgnore cfg t = true ↔
      ((cfg.ignore_single_repo = true ∧ t.repos_count = 1) ∨
       (cfg.ignore_os_utilities = true ∧
         osUtils.any
           (fun u => substringOf u.toList (lowerChars t.name)) = true) ∨
       (cfg.ignore_dev_conveniences = true ∧
         devUtils.any
           (fun u => substringOf u.toList (lowerChars t.name)) = true)) := by
  simp [shouldAutoIgnore, Bool.or_eq_true, Bool.and_eq_true, beq_iff_eq,
    or_assoc]

/-- When no two distinct names of the population are similar, the grouping
loop produces no groups. -/
theorem groupLoop_eq_nil (allNames : List String) :
    ∀ (rest processed : List String),
      (∀ n ∈ rest, ∀ o ∈ allNames, o ≠ n → similarNames n o = false) →
      groupLoop allNames rest processed = [] := by
  intro rest
  induction rest with
  | nil => intro processed _; rfl
  | cons n tl ih =>
    intro processed hno
    have hn := hno n (List.mem_cons_self n tl)
    have htl : ∀ m ∈ tl, ∀ o ∈ allNames, o ≠ m → similarNames m o = false :=
      fun m hm => hno m (List.mem_cons_of_mem n hm)
    unfold groupLoop
    split_ifs with hmem
    · exact ih processed htl
    · have hfilter : allNames.filter
          (fun o => o != n && !(processed.contains o) && similarNames n o)
          = [] := by
        apply List.filter_eq_nil_iff.mpr
        intro o ho
        by_cases heq : o = n
        · subst heq; simp
        · simp [hn o ho heq]
      simp only [hfilter, List.length_cons, List.length_nil]
      norm_num
      exact ih processed htl

/-! ## Claim C1: trend classification -/

/-- C1: trend classification is a pure function of the five counts, with the
stated precedence (first match wins): for `total > 0` the result is GROWING
iff `recent/total > 0.5` or (`new/total > 0.6` and `active/total > 0.7`);
else ABANDONED iff `legacy/total > 0.7` and `active/total < 0.3`; else
DECLINING iff `recent/total = 0`, `new/total < 0.3` and `active/total < 0.5`;
else STABLE; and NONE exactly when `total = 0`.  The four concrete vectors of
the specification evaluate as stated. -/
theorem trend_pure_precedence :
    (∀ recent new legacy active total : ℕ, 0 < total →
      (determineTrend recent new legacy active total = Trend.GROWING ↔
        ((recent : ℚ) / total > 1/2 ∨
          ((new : ℚ) / total > 3/5 ∧ (active : ℚ) / total > 7/10))) ∧
      (determineTrend recent new legacy active total = Trend.ABANDONED ↔
        (¬((recent : ℚ) / total > 1/2 ∨
            ((new : ℚ) / total > 3/5 ∧ (active : ℚ) / total > 7/10)) ∧
          ((legacy : ℚ) / total > 7/10 ∧ (active : ℚ) / total < 3/10))) ∧
      (determineTrend recent new legacy active total = Trend.DECLINING ↔
        (¬((recent : ℚ) / total > 1/2 ∨
            ((new : ℚ) / total > 3/5 ∧ (active : ℚ) / total > 7/10)) ∧
          ¬((legacy : ℚ) / total > 7/10 ∧ (active : ℚ) / total < 3/10) ∧
          ((recent : ℚ) / total = 0 ∧ (new : ℚ) / total < 3/10 ∧
            (active : ℚ) / total < 1/2))) ∧
      (determineTrend recent new legacy active total = Trend.STABLE ↔
        (¬((recent : ℚ) / total > 1/2 ∨
            ((new : ℚ) / total > 3/5 ∧ (active : ℚ) / total > 7/10)) ∧
          ¬((legacy : ℚ) / total > 7/10 ∧ (active : ℚ) / total < 3/10) ∧
          ¬((recent : ℚ) / total = 0 ∧ (new : ℚ) / total < 3/10 ∧
            (active : ℚ) / total < 1/2)))) ∧
    (∀ recent new legacy active total : ℕ,
      determineTrend recent new legacy active total = Trend.NONE ↔
        total = 0) ∧
    determineTrend 6 6 0 6 10 = Trend.GROWING ∧
    determineTrend 0 0 9 1 10 = Trend.ABANDONED ∧
    determineTrend 0 2 3 3 10 = Trend.DECLINING ∧
    determineTrend 3 3 3 5 10 = Trend.STABLE := by
  refine ⟨?_, ?_, ?_, ?_, ?_, ?_⟩
  · intro recent new legacy active total ht
    have ht' : total ≠ 0 := ht.ne'
    simp only [determineTrend, if_neg ht']
    split_ifs with h1 h2 h3 <;> simp_all
  · intro recent new legacy active total
    rcases Nat.eq_zero_or_pos total with h | h
    · subst h; simp [determineTrend]
    · have ht' : total ≠ 0 := h.ne'
      simp only [determineTrend, if_neg ht']
      split_ifs <;> simp_all
  · norm_num [determineTrend]
  · norm_num [determineTrend]
  · norm_num [determineTrend]
  · norm_num [determineTrend]

/-- Witness for C1: the GROWING characterization applied to the concrete
vector `recent=6, new=6, legacy=0, active=6, total=10`. -/
theorem trend_pure_precedence_witness :
    determineTrend 6 6 0 6 10 = Trend.GROWING ∧
    ((6 : ℚ) / 10 > 1/2 ∨ ((6 : ℚ) / 10 > 3/5 ∧ (6 : ℚ) / 10 > 7/10)) :=
  ⟨(trend_pure_precedence.1 6 6 0 6 10 (by norm_num)).1.mpr
      (Or.inl (by norm_num)),
    Or.inl (by norm_num)⟩

/-! ## Claim C2: ring decision at fixed activity 0.9 -/

/-- C2 counterexample: with activity score 0.9 and no per-domain breakdown,
usage ratio 0.3 yields ring 1 (Trial), not ring 2 (Assess) as claimed — the
Trial branch `usage ≥ 0.25 ∧ activity ≥ 0.75` fires.  (Inputs: recency 0,
trend STABLE.) -/
theorem ring_usage_claim_counterexample :
    (smartRingDecision (3/10) 0 (9/10) Trend.STABLE none).1 = 1 ∧
    (1 : ℕ) ≠ 2 := by
  norm_num [smartRingDecision]

/-- C2 amended: with activity score 0.9 and no per-domain breakdown, for
every recency score and trend, usage 0.3 yields Trial (ring 1) and usage 0.4
yields Adopt (ring 0); usage 0.05 yields Hold (ring 3) when the trend is
ABANDONED and Assess (ring 2) when it is STABLE; and across the three sample
ratios the ring index is monotonically non-increasing in the usage ratio. -/
theorem ring_usage_samples :
    ∀ (recency : ℚ) (trend : Trend),
      (smartRingDecision (3/10) recency (9/10) trend none).1 = 1 ∧
      (smartRingDecision (2/5) recency (9/10) trend none).1 = 0 ∧
      (trend = Trend.ABANDONED →
        (smartRingDecision (1/20) recency (9/10) trend none).1 = 3) ∧
      (trend = Trend.STABLE →
        (smartRingDecision (1/20) recency (9/10) trend none).1 = 2) ∧
      (smartRingDecision (2/5) recency (9/10) trend none).1 ≤
        (smartRingDecision (3/10) recency (9/10) trend none).1 ∧
      (smartRingDecision (3/10) recency (9/10) trend none).1 ≤
        (smartRingDecision (1/20) recency (9/10) trend none).1 := by
  intro recency trend
  have h3 : (smartRingDecision (3/10) recency (9/10) trend none).1 = 1 := by
    simp only [smartRingDecision, Option.bind]
    split_ifs with h1 h2 <;> norm_num at *
  have h4 : (smartRingDecision (2/5) recency (9/10) trend none).1 = 0 := by
    simp only [smartRingDecision, Option.bind]
    split_ifs with h1 <;> norm_num at *
  have h120 : 1 ≤ (smartRingDecision (1/20) recency (9/10) trend none).1 := by
    simp only [smartRingDecision, Option.bind]
    split_ifs with h1 h2 h3 <;> norm_num at *
  refine ⟨h3, h4, ?_, ?_, by omega, by omega⟩
  · intro ht; subst ht
    simp only [smartRingDecision, Option.bind]
    split_ifs with h1 h2 h3 <;> norm_num at *
  · intro ht; subst ht
    simp only [smartRingDecision, Option.bind]
    split_ifs with h1 h2 h3 <;> norm_num at *

/-- Witness for C2 amended: the three sample ratios at recency 0 and trend
ABANDONED give Hold, Trial, Adopt. -/
theorem ring_usage_samples_witness :
    (smartRingDecision (1/20) 0 (9/10) Trend.ABANDONED none).1 = 3 ∧
    (smartRingDecision (3/10) 0 (9/10) Trend.ABANDONED none).1 = 1 ∧
    (smartRingDecision (2/5) 0 (9/10) Trend.ABANDONED none).1 = 0 := by
  obtain ⟨h1, h2, h3, _, _, _⟩ := ring_usage_samples 0 Trend.ABANDONED
  exact ⟨h3 rfl, h1, h2⟩

/-! ## Claim C3: domain-dominance override -/

/-- C3 counterexample: a breakdown whose first entry meets only the Trial
threshold (30 repositories, activity 0.65) and whose second entry meets the
Adopt threshold (70 repositories, activity 0.4) yields Trial `(1, 0.8)`, not
Adopt `(0, 0.9)` — the Adopt condition is not checked over all entries
before the Trial condition is applied. -/
theorem domain_override_counterexample :
    domainAdoptCond ⟨70, 2/5⟩ ∧
    (("d2", (⟨70, 2/5⟩ : DomainMetrics)) ∈
      [("d1", (⟨30, 13/20⟩ : DomainMetrics)), ("d2", ⟨70, 2/5⟩)]) ∧
    smartRingDecision 0 0 0 Trend.STABLE
      (some [("d1", ⟨30, 13/20⟩), ("d2", ⟨70, 2/5⟩)]) = (1, 4/5) ∧
    ((1 : ℕ), (4/5 : ℚ)) ≠ (0, 9/10) := by
  refine ⟨by norm_num [domainAdoptCond], by simp, ?_, by norm_num⟩
  norm_num [smartRingDecision, Option.bind, domainDominanceLoop,
    domainAdoptCond, domainTrialCond]

/-- C3 amended: the per-domain entries are examined in breakdown order, and
within each entry the Adopt thresholds (at least 50 repositories with
activity at least 0.5, or at least 70 with at least 0.4) are checked before
the Trial threshold (at least 30 with at least 0.65); the first entry meeting
either decides — Adopt `(0, 0.9)` if that entry meets the Adopt clause, else
Trial `(1, 0.8)` — regardless of later entries. -/
theorem domain_override_order :
    ∀ (usage recency activity : ℚ) (trend : Trend)
      (pre : List (String × DomainMetrics)) (d : String) (m : DomainMetrics)
      (post : List (String × DomainMetrics)),
      (∀ p ∈ pre, ¬domainAdoptCond p.2 ∧ ¬domainTrialCond p.2) →
      (domainAdoptCond m →
        smartRingDecision usage recency activity trend
          (some (pre ++ (d, m) :: post)) = (0, 9/10)) ∧
      (¬domainAdoptCond m → domainTrialCond m →
        smartRingDecision usage recency activity trend
          (some (pre ++ (d, m) :: post)) = (1, 4/5)) := by
  intro usage recency activity trend pre d m post hpre
  constructor
  · intro ha
    apply smartRingDecision_domain_eq
    rw [domainDominanceLoop_append_skip pre _ hpre]
    simp only [domainDominanceLoop]
    rw [if_pos (domainAdoptCond_total_ge m ha), if_pos ha]
  · intro hna ht
    apply smartRingDecision_domain_eq
    rw [domainDominanceLoop_append_skip pre _ hpre]
    simp only [domainDominanceLoop]
    rw [if_pos (domainTrialCond_total_ge m ht), if_neg hna, if_pos ht]

/-- Witness for C3 amended: after a non-deciding entry, an Adopt-qualifying
entry yields `(0, 0.9)`, and a Trial-qualifying entry yields `(1, 0.8)` even
with an Adopt-qualifying entry after it. -/
theorem domain_override_order_witness :
    smartRingDecision 0 0 0 Trend.STABLE
      (some [("d0", ⟨10, 0⟩), ("d1", ⟨70, 2/5⟩)]) = (0, 9/10) ∧
    smartRingDecision 0 0 0 Trend.STABLE
      (some [("d0", ⟨10, 0⟩), ("d1", ⟨30, 13/20⟩), ("d2", ⟨70, 2/5⟩)]) =
      (1, 4/5) := by
  have hpre : ∀ p ∈ [(("d0" : String), (⟨10, 0⟩ : DomainMetrics))],
      ¬domainAdoptCond p.2 ∧ ¬domainTrialCond p.2 := by
    intro p hp
    fin_cases hp
    constructor <;> simp [domainAdoptCond, domainTrialCond]
  constructor
  · exact (domain_override_order 0 0 0 Trend.STABLE
      [("d0", ⟨10, 0⟩)] "d1" ⟨70, 2/5⟩ [] hpre).1
      (Or.inr ⟨by norm_num, by norm_num⟩)
  · exact (domain_override_order 0 0 0 Trend.STABLE
      [("d0", ⟨10, 0⟩)] "d1" ⟨30, 13/20⟩ [("d2", ⟨70, 2/5⟩)] hpre).2
      (by simp [domainAdoptCond])
      ⟨by norm_num, by norm_num⟩

/-! ## Claim C4: review escalation -/

/-- C4: the needs-review flag is set iff overall confidence is below 0.75, or
the trend is DECLINING with usage ratio above 0.3, or GROWING with usage
ratio below 0.1, or fewer than 3 repositories use the technology; the reason
accompanies exactly the flagged cases, with the first matching reason text;
otherwise the result is `(false, none)`. -/
theorem review_escalation :
    ∀ (confidence : ℚ) (trend : Trend) (total_repos : ℕ) (usage_score : ℚ),
      ((determineReviewNeed confidence trend total_repos usage_score).1 =
          true ↔
        (confidence < 3/4 ∨
         (trend = Trend.DECLINING ∧ usage_score > 3/10) ∨
         (trend = Trend.GROWING ∧ usage_score < 1/10) ∨
         total_repos < 3)) ∧
      ((determineReviewNeed confidence trend total_repos usage_score).2 =
          none ↔
        (determineReviewNeed confidence trend total_repos usage_score).1 =
          false) ∧
      (confidence < 3/4 →
        determineReviewNeed confidence trend total_repos usage_score =
          (true, some "Low confidence classification")) ∧
      (¬confidence < 3/4 → trend = Trend.DECLINING → usage_score > 3/10 →
        determineReviewNeed confidence trend total_repos usage_score =
          (true, some "High usage but declining trend")) ∧
      (¬confidence < 3/4 → ¬(trend = Trend.DECLINING ∧ usage_score > 3/10) →
        trend = Trend.GROWING → usage_score < 1/10 →
        determineReviewNeed confidence trend total_repos usage_score =
          (true, some "Low usage but growing trend")) ∧
      (¬confidence < 3/4 → ¬(trend = Trend.DECLINING ∧ usage_score > 3/10) →
        ¬(trend = Trend.GROWING ∧ usage_score < 1/10) → total_repos < 3 →
        determineReviewNeed confidence trend total_repos usage_score =
          (true, some "Limited data (fewer than 3 repos)")) ∧
      (¬(confidence < 3/4 ∨
          (trend = Trend.DECLINING ∧ usage_score > 3/10) ∨
          (trend = Trend.GROWING ∧ usage_score < 1/10) ∨
          total_repos < 3) →
        determineReviewNeed confidence trend total_repos usage_score =
          (false, none)) := by
  intro confidence trend total_repos usage_score
  unfold determineReviewNeed
  split_ifs <;> simp_all

/-- Witness for C4: a low-confidence input is flagged with the
low-confidence reason; a clear input is not flagged. -/
theorem review_escalation_witness :
    determineReviewNeed (1/2) Trend.STABLE 10 (1/2) =
      (true, some "Low confidence classification") ∧
    determineReviewNeed (9/10) Trend.STABLE 10 (1/2) = (false, none) := by
  refine ⟨(review_escalation (1/2) Trend.STABLE 10 (1/2)).2.2.1 (by norm_num),
    (review_escalation (9/10) Trend.STABLE 10 (1/2)).2.2.2.2.2.2 ?_⟩
  push_neg
  refine ⟨by norm_num, ?_, ?_, by norm_num⟩ <;> intro h <;> simp at h

/-! ## Claim C5: overall confidence -/

/-- C5: the overall confidence equals the weighted blend
`signalClarity * 0.4 + ringConfidence * 0.4 + aiConfidence * 0.2` (the upper
clamp `min(·, 1)` never bites for in-range inputs), and for every ring base
confidence and Oracle confidence in `[0, 1]` the result lies in `[0, 1]`. -/
theorem overall_confidence_blend :
    ∀ (usage recency activity : ℚ) (trend : Trend) (total_repos : ℕ)
      (ring_conf ai_conf : ℚ),
      0 ≤ ring_conf → ring_conf ≤ 1 → 0 ≤ ai_conf → ai_conf ≤ 1 →
      calculateConfidence usage recency activity trend total_repos
          ring_conf ai_conf =
        signalClarity usage activity trend total_repos * (2/5) +
          ring_conf * (2/5) + ai_conf * (1/5) ∧
      0 ≤ calculateConfidence usage recency activity trend total_repos
          ring_conf ai_conf ∧
      calculateConfidence usage recency activity trend total_repos
          ring_conf ai_conf ≤ 1 := by
  intro usage recency activity trend total_repos ring_conf ai_conf
  intro hr0 hr1 ha0 ha1
  obtain ⟨hs0, hs1⟩ := signalClarity_mem usage activity trend total_repos
  set s := signalClarity usage activity trend total_repos with hs
  have hblend1 :
      s * (2/5) + ring_conf * (2/5) + ai_conf * (1/5) ≤ 1 := by nlinarith
  have hblend0 :
      0 ≤ s * (2/5) + ring_conf * (2/5) + ai_conf * (1/5) := by nlinarith
  have heq : calculateConfidence usage recency activity trend total_repos
      ring_conf ai_conf =
      s * (2/5) + ring_conf * (2/5) + ai_conf * (1/5) := by
    unfold calculateConfidence
    rw [← hs, min_eq_left hblend1]
  exact ⟨heq, by rw [heq]; exact hblend0, by rw [heq]; exact hblend1⟩

/-- Witness for C5: the blend at a concrete in-range input. -/
theorem overall_confidence_blend_witness :
    calculateConfidence 0 0 0 Trend.STABLE 10 (9/10) (3/5) =
      signalClarity 0 0 Trend.STABLE 10 * (2/5) + (9/10) * (2/5) +
        (3/5) * (1/5) ∧
    0 ≤ calculateConfidence 0 0 0 Trend.STABLE 10 (9/10) (3/5) ∧
    calculateConfidence 0 0 0 Trend.STABLE 10 (9/10) (3/5) ≤ 1 :=
  overall_confidence_blend 0 0 0 Trend.STABLE 10 (9/10) (3/5)
    (by norm_num) (by norm_num) (by norm_num) (by norm_num)

/-! ## Claim C6: circuit breaker state machine -/

/-- C6: starting from a fresh CLOSED breaker (threshold 5, cooldown 60s),
five consecutive failures open the breaker; while OPEN with the cooldown not
elapsed, every call is rejected without invoking the operation and leaves the
state unchanged; once the cooldown has elapsed, the next call invokes the
operation as the HALF_OPEN trial — success closes the breaker and resets the
failure counter, failure (from any reachable state) immediately re-opens it
with the failure clock reset to the time of that failure. -/
theorem circuit_breaker_contract :
    (((List.range 5).foldl (fun b t => (b.call t false).breaker)
        (CircuitBreaker.initial 5 60)).state = CircuitState.OPEN ∧
      ((List.range 5).foldl (fun b t => (b.call t false).breaker)
        (CircuitBreaker.initial 5 60)) =
        ⟨5, 60, 5, some 4, CircuitState.OPEN⟩) ∧
    (∀ (b : CircuitBreaker) (now t : ℕ) (op : Bool),
      b.state = CircuitState.OPEN → b.last_failure_time = some t →
      (now : ℤ) - t < b.timeout →
      b.call now op =
        { breaker := b, outcome := CallOutcome.rejected, invoked := false }) ∧
    (∀ (b : CircuitBreaker) (now t : ℕ),
      b.state = CircuitState.OPEN → b.last_failure_time = some t →
      (b.timeout : ℤ) ≤ (now : ℤ) - t →
      (b.call now true).invoked = true ∧
      (b.call now true).breaker.state = CircuitState.CLOSED ∧
      (b.call now true).breaker.failure_count = 0) ∧
    (∀ (threshold timeout : ℕ) (b : CircuitBreaker) (now t : ℕ),
      CircuitBreaker.Reachable threshold timeout b →
      b.state = CircuitState.OPEN → b.last_failure_time = some t →
      (b.timeout : ℤ) ≤ (now : ℤ) - t →
      (b.call now false).invoked = true ∧
      (b.call now false).breaker.state = CircuitState.OPEN ∧
      (b.call now false).breaker.last_failure_time = some now) := by
  refine ⟨⟨by decide, by decide⟩, ?_, ?_, ?_⟩
  · intro b now t op hopen hlast hlt
    rw [CircuitBreaker.call, if_pos hopen, hlast]
    rw [if_neg]
    simp only [Option.getD_some]
    exact not_le.mpr hlt
  · intro b now t hopen hlast hle
    rw [CircuitBreaker.call, if_pos hopen, hlast]
    rw [if_pos]
    · simp [CircuitBreaker.attempt]
    · simpa using hle
  · intro threshold timeout b now t hreach hopen hlast hle
    have hinv := (CircuitBreaker.reachable_inv hreach).2 hopen
    rw [CircuitBreaker.call, if_pos hopen, hlast]
    rw [if_pos]
    · have hfc : b.failure_threshold ≤ b.failure_count + 1 := by omega
      simp [CircuitBreaker.attempt, hfc]
    · simpa using hle

/-- Witness for C6: the breaker opened by five failures (at seconds 0..4)
rejects a call at second 30, closes on a successful trial at second 64, and
re-opens with a fresh failure clock on a failed trial at second 64. -/
theorem circuit_breaker_contract_witness :
    (CircuitBreaker.call ⟨5, 60, 5, some 4, CircuitState.OPEN⟩ 30 true =
      { breaker := ⟨5, 60, 5, some 4, CircuitState.OPEN⟩,
        outcome := CallOutcome.rejected, invoked := false }) ∧
    ((CircuitBreaker.call ⟨5, 60, 5, some 4, CircuitState.OPEN⟩ 64
        true).breaker.state = CircuitState.CLOSED) ∧
    ((CircuitBreaker.call ⟨5, 60, 5, some 4, CircuitState.OPEN⟩ 64
        false).breaker.state = CircuitState.OPEN ∧
      (CircuitBreaker.call ⟨5, 60, 5, some 4, CircuitState.OPEN⟩ 64
        false).breaker.last_failure_time = some 64) := by
  obtain ⟨h1, h2, h3, h4⟩ := circuit_breaker_contract
  have hreach :
      CircuitBreaker.Reachable 5 60 ⟨5, 60, 5, some 4, CircuitState.OPEN⟩ := by
    have h0 : CircuitBreaker.Reachable 5 60 (CircuitBreaker.initial 5 60) :=
      CircuitBreaker.Reachable.init
    have hstep := CircuitBreaker.Reachable.step 4 false
      (CircuitBreaker.Reachable.step 3 false
        (CircuitBreaker.Reachable.step 2 false
          (CircuitBreaker.Reachable.step 1 false
            (CircuitBreaker.Reachable.step 0 false h0))))
    convert hstep using 1
  refine ⟨h2 _ 30 4 true rfl rfl (by norm_num),
    (h3 _ 64 4 rfl rfl (by norm_num)).2.1, ?_⟩
  have h := h4 5 60 _ 64 4 hreach rfl rfl (by norm_num)
  exact ⟨h.2.1, h.2.2⟩

/-! ## Claim C7: checkpoint completeness -/

/-- C7: an identifier appears in the checkpoint after a run (or any
interrupted prefix of one) only if it was checkpointed before the run or
names a repository whose guarded fetch-and-extract completes without raising;
a repository whose scan raises everywhere it appears is never marked
scanned. -/
theorem checkpoint_subset_completed :
    ∀ (cp0 : List String) (b0 : CircuitBreaker) (repos : List RepoInfo)
      (name : String),
      (name ∈ (scanOrganization cp0 b0 repos).checkpoint →
        name ∈ cp0 ∨
          ∃ r ∈ repos, r.full_name = name ∧ r.scan_raises = false) ∧
      (∀ k : ℕ,
        name ∈ (scanOrganization cp0 b0 (List.take k repos)).checkpoint →
        name ∈ cp0 ∨
          ∃ r ∈ repos, r.full_name = name ∧ r.scan_raises = false) ∧
      (name ∉ cp0 →
        (∀ r ∈ repos, r.full_name = name → r.scan_raises = true) →
        name ∉ (scanOrganization cp0 b0 repos).checkpoint) := by
  intro cp0 b0 repos name
  refine ⟨fun h => scanStep_foldl_checkpoint repos _ name h, ?_, ?_⟩
  · intro k h
    rcases scanStep_foldl_checkpoint (List.take k repos) _ name h with
      h' | ⟨r, hr, hn, hs⟩
    · exact Or.inl h'
    · exact Or.inr ⟨r, List.take_subset k repos hr, hn, hs⟩
  · intro hnot hall h
    rcases scanStep_foldl_checkpoint repos _ name h with h' | ⟨r, hr, hn, hs⟩
    · exact hnot h'
    · rw [hall r hr hn] at hs
      exact Bool.true_eq_false.mp hs

/-- Witness for C7: in a two-repository run where the second repository's
scan raises, that repository is absent from the final checkpoint. -/
theorem checkpoint_subset_completed_witness :
    "org/bad" ∉ (scanOrganization ["old/repo"] (CircuitBreaker.initial 5 60)
      [⟨"org/good", false, false, 0⟩,
        ⟨"org/bad", false, true, 1⟩]).checkpoint ∧
    ("org/bad" : String) ∉ ["old/repo"] := by
  refine ⟨(checkpoint_subset_completed ["old/repo"]
    (CircuitBreaker.initial 5 60)
    [⟨"org/good", false, false, 0⟩, ⟨"org/bad", false, true, 1⟩]
    "org/bad").2.2 (by decide) ?_, by decide⟩
  intro r hr hname
  fin_cases hr
  · simp at hname
  · rfl

/-! ## Claim C8: strategic-filter auto-removal -/

/-- C8 counterexample: the technology named "foo" with exactly one using
repository matches neither the OS-utility nor the developer-convenience name
list, yet (not allow-listed, below the minimum of 5) it is auto-removed by
the single-repository rule rather than submitted to the Oracle — refuting
"auto-removed exactly when it matches the name list and has exactly one
repository". -/
theorem auto_ignore_counterexample :
    osUtils.any (fun u => substringOf u.toList (lowerChars "foo")) = false ∧
    devUtils.any (fun u => substringOf u.toList (lowerChars "foo")) = false ∧
    (FilterTech.mk "foo" 1).repos_count = 1 ∧
    strategicPath ⟨true, true, true, 5, []⟩ ⟨"foo", 1⟩ =
      StrategicPath.autoIgnore ∧
    StrategicPath.autoIgnore ≠ StrategicPath.oracleConsulted := by decide

/-- C8 amended: for a technology neither allow-listed nor at the global
repository minimum, auto-removal happens exactly when any one of the three
independent rules fires — single-repository (enabled and exactly one repo),
OS-utility name match, or developer-convenience name match — and the Oracle
is consulted exactly otherwise. -/
theorem auto_ignore_disjunction :
    ∀ (cfg : FilterConfig) (t : FilterTech),
      t.name ∉ cfg.always_include_names →
      t.repos_count < cfg.always_include_min_repos →
      ((strategicPath cfg t = StrategicPath.autoIgnore ↔
        ((cfg.ignore_single_repo = true ∧ t.repos_count = 1) ∨
         (cfg.ignore_os_utilities = true ∧
           osUtils.any
             (fun u => substringOf u.toList (lowerChars t.name)) = true) ∨
         (cfg.ignore_dev_conveniences = true ∧
           devUtils.any
             (fun u => substringOf u.toList (lowerChars t.name)) = true))) ∧
       (strategicPath cfg t = StrategicPath.oracleConsulted ↔
        ¬((cfg.ignore_single_repo = true ∧ t.repos_count = 1) ∨
          (cfg.ignore_os_utilities = true ∧
            osUtils.any
              (fun u => substringOf u.toList (lowerChars t.name)) = true) ∨
          (cfg.ignore_dev_conveniences = true ∧
            devUtils.any
              (fun u => substringOf u.toList (lowerChars t.name)) = true)))) := by
  intro cfg t hname hcount
  rw [strategicPath, if_neg hname, if_neg (not_le.mpr hcount)]
  rw [← shouldAutoIgnore_iff]
  by_cases h : shouldAutoIgnore cfg t = true
  · rw [if_pos h]
    simp [h]
  · rw [if_neg h]
    simp [h]

/-- Witness for C8 amended: "curl" with 3 repositories (not exactly one) is
auto-removed through the OS-utility name rule. -/
theorem auto_ignore_disjunction_witness :
    strategicPath ⟨true, true, true, 5, []⟩ ⟨"curl", 3⟩ =
      StrategicPath.autoIgnore ∧
    osUtils.any (fun u => substringOf u.toList (lowerChars "curl")) = true :=
  ⟨(auto_ignore_disjunction ⟨true, true, true, 5, []⟩ ⟨"curl", 3⟩
      (by simp) (by norm_num)).1.mpr
      (Or.inr (Or.inl ⟨rfl, by decide⟩)),
    by decide⟩

/-! ## Claim C9: curation merge idempotence -/

/-- C9 counterexample: on the set {"abcdef", "abcdefgh", "bcdefg"} with a
deterministic Oracle that accepts every group it is shown (canonical the
longer name), the first run merges "abcdef" into "abcdefgh" — and the second
run then groups the survivors "abcdefgh" and "bcdefg" (substring containment,
length difference 2) and produces a further accepted merge group, refuting
idempotence. -/
theorem curation_merge_not_idempotent :
    detectAllDuplicates
      ((curationMergeRun [⟨"abcdef", 1⟩, ⟨"abcdefgh", 1⟩, ⟨"bcdefg", 1⟩]
        (fun g =>
          if g = ["abcdef", "abcdefgh"] then some ⟨"abcdefgh", ["abcdef"]⟩
          else if g = ["abcdefgh", "bcdefg"] then
            some ⟨"abcdefgh", ["bcdefg"]⟩
          else none)).map (fun t => t.name))
      (fun g =>
        if g = ["abcdef", "abcdefgh"] then some ⟨"abcdefgh", ["abcdef"]⟩
        else if g = ["abcdefgh", "bcdefg"] then some ⟨"abcdefgh", ["bcdefg"]⟩
        else none) = [⟨"abcdefgh", ["bcdefg"]⟩] ∧
    ([⟨"abcdefgh", ["bcdefg"]⟩] : List MergeGroup) ≠ [] := by
  exact ⟨by decide, by decide⟩

/-- C9 amended: applying an accepted merge group removes the non-canonical
candidates, and the canonical survivor absorbs the summed repository counts
of the group's members; but merging is not idempotent in general — a second
run is guaranteed to produce no merge groups only when the curated set
contains no two distinct similar names (case-insensitive equality or
substring containment with length difference at most 5). -/
theorem curation_merge_amended :
    (∀ (names : List String) (oracle : List String → Option MergeGroup),
      (∀ a ∈ names, ∀ b ∈ names, b ≠ a → similarNames a b = false) →
      detectAllDuplicates names oracle = []) ∧
    (∀ (techs : List CurTech) (g : MergeGroup),
      (∀ t ∈ applyMergeGroups techs [g], t.name ∉ g.merge_candidates) ∧
      (g.canonical_name ∉ g.merge_candidates →
        ∀ t0 ∈ techs, t0.name = g.canonical_name →
        ∃ t ∈ applyMergeGroups techs [g],
          t.name = g.canonical_name ∧
          t.repos_count = mergedCount techs g)) := by
  constructor
  · intro names oracle h
    unfold detectAllDuplicates groupSimilarNames
    rw [groupLoop_eq_nil names names [] (fun n hn o ho hne => h n hn o ho hne)]
    rfl
  · intro techs g
    constructor
    · intro t ht
      unfold applyMergeGroups at ht
      rw [List.mem_filter] at ht
      intro hmem
      have hcontains := ht.2
      simp only [List.flatMap_cons, List.flatMap_nil, List.append_nil]
        at hcontains
      rw [Bool.not_eq_true'] at hcontains
      simp [hmem] at hcontains
    · intro hcanon t0 ht0 hname
      refine ⟨{ t0 with repos_count := mergedCount techs g }, ?_,
        by simp [hname], rfl⟩
      unfold applyMergeGroups
      rw [List.mem_filter]
      constructor
      · simp only [List.foldl_cons, List.foldl_nil]
        unfold updateCanonical
        have hmap : ({ t0 with repos_count := mergedCount techs g } :
            CurTech) =
            (fun t => if t.name == g.canonical_name then
              { t with repos_count := mergedCount techs g } else t) t0 := by
          simp [hname]
        rw [hmap]
        exact List.mem_map_of_mem _ ht0
      · simp only [List.flatMap_cons, List.flatMap_nil, List.append_nil]
        simp [hname, hcanon]

/-- Witness for C9 amended: a pairwise non-similar pair of names yields no
merge groups even under an Oracle that always accepts, and one accepted
group over {"A": 1, "b": 2} leaves a canonical "A" carrying count 3. -/
theorem curation_merge_amended_witness :
    detectAllDuplicates ["alpha", "zzzzzzzzzzzz"]
      (fun _ => some ⟨"x", ["alpha"]⟩) = [] ∧
    (∃ t ∈ applyMergeGroups [⟨"A", 1⟩, ⟨"b", 2⟩] [⟨"A", ["b"]⟩],
      t.name = "A" ∧ t.repos_count = 3) := by
  constructor
  · apply curation_merge_amended.1
    intro a ha b hb hne
    fin_cases ha <;> fin_cases hb <;> first | (exfalso; exact hne rfl) | decide
  · obtain ⟨t, ht, hn, hc⟩ :=
      (curation_merge_amended.2 [⟨"A", 1⟩, ⟨"b", 2⟩] ⟨"A", ["b"]⟩).2
        (by decide) ⟨"A", 1⟩ (by decide) rfl
    exact ⟨t, ht, hn, by rw [hc]; decide⟩

/-! ## Claim C10: recency score is not bounded by 1 -/

/-- C10: the recency-class flags nest (`is_recent` implies `is_new`), and for
every selection with `recent ≤ new ≤ total` and `total > 0` the recency score
equals `(recent + 0.5 * new) / total` and lies in `[0, 1.5]`; when every
matching repository is recent (`recent = new = total`) it is exactly 1.5,
exceeding 1. -/
theorem recency_score_unbounded :
    (∀ age : ℚ, isRecent age = true → isNew age = true) ∧
    (∀ recent new total : ℕ, recent ≤ new → new ≤ total → 0 < total →
      calculateRecencyScore recent new total =
        ((recent : ℚ) + (1/2) * (new : ℚ)) / (total : ℚ) ∧
      0 ≤ calculateRecencyScore recent new total ∧
      calculateRecencyScore recent new total ≤ 3/2) ∧
    (∀ total : ℕ, 0 < total →
      calculateRecencyScore total total total = 3/2) := by
  refine ⟨?_, ?_, ?_⟩
  · intro age h
    simp only [isRecent, decide_eq_true_eq] at h
    simp only [isNew, decide_eq_true_eq]
    linarith
  · intro recent new total h1 h2 h3
    have ht : (0 : ℚ) < (total : ℚ) := by exact_mod_cast h3
    unfold calculateRecencyScore
    rw [if_neg h3.ne']
    refine ⟨by ring_nf, by positivity, ?_⟩
    rw [div_le_iff₀ ht]
    have hr : (recent : ℚ) ≤ (total : ℚ) := by exact_mod_cast le_trans h1 h2
    have hn : (new : ℚ) ≤ (total : ℚ) := by exact_mod_cast h2
    linarith
  · intro total h
    unfold calculateRecencyScore
    rw [if_neg h.ne']
    have ht : (total : ℚ) ≠ 0 := by exact_mod_cast h.ne'
    field_simp
    ring

/-- Witness for C10: with all three counts equal to 3 the score is exactly
1.5 > 1, and a 5-month-old repository is both recent and new. -/
theorem recency_score_unbounded_witness :
    calculateRecencyScore 3 3 3 = 3/2 ∧ ((3 : ℚ)/2) > 1 ∧
    isRecent 5 = true ∧ isNew 5 = true := by
  refine ⟨recency_score_unbounded.2.2 3 (by norm_num), by norm_num, ?_, ?_⟩
  · decide
  · exact recency_score_unbounded.1 5 (by decide)

end TechRadar
